import Mathlib

/-!
Shallow embedding of `src/app/canvas/canvas.component.ts` of the
ShapeShifter repository, together with proofs about the transform
resolver, hit testing, the render pipeline and mode-controller switching.

Only `canvas.component.ts` is part of the repository excerpt; the
supporting modules it imports (`scripts/paths`, `scripts/layers`,
`scripts/common`, `services`) are modelled from the specification where a
claim depends on them.  Numeric values are embedded as exact rationals.
Calls to the 2D drawing surface are embedded as traces: lists of the
primitive operations issued, in order.
-/

namespace ShapeShifter

/-- Modelled from the spec: `Point` from `scripts/common` is not under
`src/`.  The spec describes it as an immutable (x, y) real-valued
coordinate whose equality is exact numeric comparison. -/
structure Point where
  x : ℚ
  y : ℚ
deriving DecidableEq, Repr

/-- Modelled from the spec: the `Matrix` class from `scripts/common` is not
under `src/`.  The spec describes a 2D affine transform; the claims about
`canvas.component.ts` depend only on the identity and order of the
constructed matrices (which constructor produced them, with which
arguments), so matrices are embedded as a tagged value recording their
construction. -/
inductive Matrix where
  | fromTranslation (tx ty : ℚ)
  | fromRotation (degrees : ℚ)
  | fromScaling (sx sy : ℚ)
deriving DecidableEq, Repr

/-- Modelled from the spec: the `Layer` variants from `scripts/layers` are
not under `src/`.  The spec describes a tree of
VectorLayer (root container with width/height/alpha),
GroupLayer (pivot, translate, rotate, scale, children),
PathLayer and ClipPathLayer, each looked up by a stable string id.  Only
the fields used by `canvas.component.ts` are carried; the PathLayer paint
attributes live in `PathLayerData` below. -/
inductive Layer where
  | vector (id : String) (width height alpha : ℚ) (children : List Layer)
  | group (id : String) (pivotX pivotY translateX translateY rotation scaleX scaleY : ℚ)
      (children : List Layer)
  | path (id : String)
  | clipPath (id : String)
deriving Repr

namespace Layer

/-- The `id` field shared by all layer variants. -/
def id : Layer → String
  | .vector i _ _ _ _ => i
  | .group i _ _ _ _ _ _ _ _ => i
  | .path i => i
  | .clipPath i => i

/-- The `children` property: VectorLayer and GroupLayer have children;
for PathLayer and ClipPathLayer the source's `current.children` is
undefined, embedded as the empty list. -/
def children : Layer → List Layer
  | .vector _ _ _ _ cs => cs
  | .group _ _ _ _ _ _ _ _ cs => cs
  | .path _ => []
  | .clipPath _ => []

/-- Size bound used to justify termination of the tree traversals. -/
def sizeOf_children_lt (l : Layer) : sizeOf l.children < sizeOf l := by
  cases l
  case vector => simp [Layer.children]
  case group => simp [Layer.children]
  case path i => simp [Layer.children]; cases i; simp
  case clipPath i => simp [Layer.children]; cases i; simp

end Layer

/-- Embeds the inner `flatMap` body of `getTransformsForLayer`
(canvas.component.ts lines 1201-1212): a GroupLayer ancestor contributes
the five matrices pivot-translate, translate, rotate, scale,
inverse-pivot-translate; any other layer contributes no matrices. -/
def layerTransformMatrices : Layer → List Matrix
  | .group _ px py tx ty r sx sy _ =>
      [Matrix.fromTranslation px py,
       Matrix.fromTranslation tx ty,
       Matrix.fromRotation r,
       Matrix.fromScaling sx sy,
       Matrix.fromTranslation (-px) (-py)]
  | _ => []

mutual

/-- Embeds the recursive `getTransformsFn` closure inside
`getTransformsForLayer` (canvas.component.ts lines 1199-1223): if the
current layer's id matches, flat-map the accumulated parents through the
group-matrix extraction; otherwise recurse into the children in order and
return the first defined result, or `none`. -/
def getTransformsFn (layerId : String) (parents : List Layer) (current : Layer) :
    Option (List Matrix) :=
  if current.id = layerId then
    some (parents.flatMap layerTransformMatrices)
  else
    getTransformsFnList layerId (parents ++ [current]) current.children
termination_by sizeOf current
decreasing_by exact Layer.sizeOf_children_lt current

/-- The `for (const child of current.children)` loop of `getTransformsFn`:
return the first child whose recursive call yields a defined result. -/
def getTransformsFnList (layerId : String) (parents : List Layer) :
    List Layer → Option (List Matrix)
  | [] => none
  | child :: rest =>
      match getTransformsFn layerId parents child with
      | some ts => some ts
      | none => getTransformsFnList layerId parents rest
termination_by l => sizeOf l
decreasing_by all_goals (simp; try omega)

end

/-- Embeds `getTransformsForLayer(vectorLayer, layerId)`
(canvas.component.ts lines 1198-1225).  Returns `none` (the source's
`undefined`) when the layer id is absent from the tree. -/
def getTransformsForLayer (vectorLayer : Layer) (layerId : String) :
    Option (List Matrix) :=
  getTransformsFn layerId [] vectorLayer

mutual

/-- Depth-first ancestor-chain lookup: returns the list of strict
ancestors (outermost first) of the first layer, in depth-first order,
whose id matches.  Used to state what `getTransformsForLayer` computes. -/
def findAncestors (layerId : String) (parents : List Layer) (current : Layer) :
    Option (List Layer) :=
  if current.id = layerId then
    some parents
  else
    findAncestorsList layerId (parents ++ [current]) current.children
termination_by sizeOf current
decreasing_by exact Layer.sizeOf_children_lt current

/-- Child-list traversal for `findAncestors`. -/
def findAncestorsList (layerId : String) (parents : List Layer) :
    List Layer → Option (List Layer)
  | [] => none
  | child :: rest =>
      match findAncestors layerId parents child with
      | some ps => some ps
      | none => findAncestorsList layerId parents rest
termination_by l => sizeOf l
decreasing_by all_goals (simp; try omega)

end

mutual

/-- Decides whether a layer id occurs somewhere in a layer tree. -/
def occursIn (layerId : String) (current : Layer) : Bool :=
  current.id = layerId || occursInList layerId current.children
termination_by sizeOf current
decreasing_by exact Layer.sizeOf_children_lt current

/-- Decides whether a layer id occurs in any tree of a list. -/
def occursInList (layerId : String) : List Layer → Bool
  | [] => false
  | child :: rest => occursIn layerId child || occursInList layerId rest
termination_by l => sizeOf l
decreasing_by all_goals (simp; try omega)

end

/-! Constants from canvas.component.ts lines 30-50. -/

/-- `SPLIT_POINT_RADIUS_FACTOR = 0.8` (line 30). -/
def SPLIT_POINT_RADIUS_FACTOR : ℚ := 8 / 10

/-- `DISABLED_ALPHA = 0.38` (line 33). -/
def DISABLED_ALPHA : ℚ := 38 / 100

/-- `MEDIUM_POINT_RADIUS = 8` (line 46): the radius of a medium point in
css pixels; `this.mediumPointRadius` divides it by `cssScale`. -/
def MEDIUM_POINT_RADIUS : ℚ := 8

/-- JavaScript's remainder operator `a % b`: the sign follows the
dividend, i.e. `a - b * trunc(a / b)`. -/
def jsRem (a b : ℚ) : ℚ :=
  a - b * (if 0 ≤ a / b then (⌊a / b⌋ : ℚ) else (⌈a / b⌉ : ℚ))

/-- Modelled from the spec: the SVG character kind of a path command
(`kind ∈ {MoveTo, LineTo, QuadraticCurveTo, CubicCurveTo, ClosePath}`). -/
inductive SvgChar where
  | M
  | L
  | Q
  | C
  | Z
deriving DecidableEq, Repr

/-- Modelled from the spec: `Command` from `scripts/paths` is not under
`src/`.  It holds its kind, its points (start point first, end point
last, matching the source's `getStart()`/`getEnd()` accessors) and the
isSplit flag. -/
structure Cmd where
  svgChar : SvgChar
  points : List Point
  isSplit : Bool := false
deriving DecidableEq, Repr

/-- `Command.getStart()`: the first point. -/
def Cmd.getStart (c : Cmd) : Point := c.points.headD ⟨0, 0⟩

/-- `Command.getEnd()`: the last point. -/
def Cmd.getEnd (c : Cmd) : Point := c.points.getLastD ⟨0, 0⟩

/-- `Command.getPoints()[i]`. -/
def Cmd.getPoint (c : Cmd) (i : ℕ) : Point := c.points.getD i ⟨0, 0⟩

/-- One primitive call on the 2D drawing surface, as issued by
`executeCommands`. -/
inductive CanvasOp where
  | save
  | restore
  | transform (m : Matrix)
  | beginPath
  | moveTo (x y : ℚ)
  | lineTo (x y : ℚ)
  | quadraticCurveTo (x1 y1 x2 y2 : ℚ)
  | bezierCurveTo (x1 y1 x2 y2 x3 y3 : ℚ)
  | closePath
deriving DecidableEq, Repr

/-- One iteration of the `commands.forEach` loop in `executeCommands`
(canvas.component.ts lines 1244-1271), given the `previousEndPoint`
mutable variable (`none` on the first iteration, where the source compares
against `undefined`; the comparison is then false, matching the source's
intent stated in its comment for the single-ClosePath case). -/
def executeCommandStep (previousEndPoint : Option Point) (cmd : Cmd) : List CanvasOp :=
  match cmd.svgChar with
  | .M => [.moveTo cmd.getEnd.x cmd.getEnd.y]
  | .L => [.lineTo cmd.getEnd.x cmd.getEnd.y]
  | .Q => [.quadraticCurveTo (cmd.getPoint 1).x (cmd.getPoint 1).y
             (cmd.getPoint 2).x (cmd.getPoint 2).y]
  | .C => [.bezierCurveTo (cmd.getPoint 1).x (cmd.getPoint 1).y
             (cmd.getPoint 2).x (cmd.getPoint 2).y
             (cmd.getPoint 3).x (cmd.getPoint 3).y]
  | .Z =>
      if previousEndPoint = some cmd.getStart then
        [.closePath]
      else
        [.moveTo cmd.getStart.x cmd.getStart.y, .lineTo cmd.getEnd.x cmd.getEnd.y]

/-- The full `commands.forEach` loop, threading `previousEndPoint`. -/
def executeCommandsLoop (previousEndPoint : Option Point) : List Cmd → List CanvasOp
  | [] => []
  | cmd :: rest =>
      executeCommandStep previousEndPoint cmd
        ++ executeCommandsLoop (some cmd.getEnd) rest

/-- The special handling for drawing a single segment of the path
(canvas.component.ts lines 1237-1241): when the command list has exactly
one element that is not a MoveTo, first move to its start point. -/
def singleSegmentMoveTo : List Cmd → List CanvasOp
  | [only] =>
      if only.svgChar ≠ SvgChar.M then
        [CanvasOp.moveTo only.getStart.x only.getStart.y]
      else []
  | _ => []

/-- Embeds `executeCommands(ctx, commands, transforms)`
(canvas.component.ts lines 1228-1273) as the trace of drawing-surface
calls it issues: save, the transforms, beginPath, the special moveTo for a
single non-MoveTo command, the per-command calls, restore. -/
def executeCommands (commands : List Cmd) (transforms : List Matrix) : List CanvasOp :=
  [CanvasOp.save] ++ transforms.map CanvasOp.transform ++ [CanvasOp.beginPath]
    ++ singleSegmentMoveTo commands
    ++ executeCommandsLoop none commands
    ++ [CanvasOp.restore]

/-- Modelled from the spec: the PathLayer paint attributes used by
`canvas.component.ts` (`isStroked()`/`isFilled()` report whether stroke
and fill paints are present; these are independent attributes). -/
structure PathLayerData where
  isStroked : Bool
  isFilled : Bool
  strokeWidth : ℚ
  trimPathStart : ℚ
  trimPathEnd : ℚ
  trimPathOffset : ℚ
  fillTypeEvenOdd : Bool
deriving DecidableEq, Repr

/-- One dash/stroke/fill call on the drawing surface, as issued by
`drawPaths` for one PathLayer. -/
inductive PaintOp where
  | setLineDash (segments : List ℚ)
  | setLineDashOffset (offset : ℚ)
  | stroke
  | fillEvenOdd
  | fillNonzero
deriving DecidableEq, Repr

/-- Embeds the trim-path dash computation and the guarded stroke/fill
calls of `drawPaths` (canvas.component.ts lines 598-637) for one
PathLayer, given the layer's `pathData.getPathLength()`. -/
def drawPathLayerPaintOps (layer : PathLayerData) (pathLength : ℚ) : List PaintOp :=
  (if layer.trimPathStart ≠ 0 ∨ layer.trimPathEnd ≠ 1 ∨ layer.trimPathOffset ≠ 0 then
    let shownFraction :=
      if layer.trimPathStart > layer.trimPathEnd then
        layer.trimPathEnd - layer.trimPathStart + 1
      else
        layer.trimPathEnd - layer.trimPathStart
    [PaintOp.setLineDash
       [shownFraction * pathLength,
        (1 - shownFraction + 1 / 1000) * pathLength],
     PaintOp.setLineDashOffset
       (pathLength * (1 - jsRem (layer.trimPathStart + layer.trimPathOffset) 1))]
  else
    [PaintOp.setLineDash []])
  ++ (if layer.isStroked = true ∧ layer.strokeWidth ≠ 0
        ∧ layer.trimPathStart ≠ layer.trimPathEnd then
        [PaintOp.stroke]
      else [])
  ++ (if layer.isFilled = true then
        if layer.fillTypeEvenOdd then [PaintOp.fillEvenOdd] else [PaintOp.fillNonzero]
      else [])

/-- The three drawing contexts used by `draw()`. -/
inductive DrawCtx where
  | rendering
  | offscreenLayer
  | offscreenSubPath
deriving DecidableEq, Repr

/-- One context-level operation performed by `draw()`.  The two
`drawPaths` calls are abstracted to which context they target and which
subpath group (disabled or enabled) their extractor selects;
`drawTranslucentOffscreenCtx` (lines 549-561) is abstracted to its
destination, source and alpha. -/
inductive DrawStep where
  | save (c : DrawCtx)
  | restore (c : DrawCtx)
  | setupViewportCoords (c : DrawCtx)
  | drawDisabledSubPaths (c : DrawCtx)
  | drawEnabledSubPaths (c : DrawCtx)
  | drawTranslucentOffscreenCtx (dst src : DrawCtx) (alpha : ℚ)
  | drawOverlays
deriving DecidableEq, Repr

/-- The composed alpha of `draw()` (lines 484-485):
`(shouldDisableLayer ? DISABLED_ALPHA : 1) * (vectorLayer ? vectorLayer.alpha : 1)`. -/
def currentAlphaOf (vectorLayerAlpha : Option ℚ) (shouldDisableLayer : Bool) : ℚ :=
  (if shouldDisableLayer then DISABLED_ALPHA else 1) * vectorLayerAlpha.getD 1

/-- Embeds `draw()` (canvas.component.ts lines 476-540) as the sequence of
context-level operations it performs. -/
def draw (isViewInit : Bool) (vectorLayerAlpha : Option ℚ) (shouldDisableLayer : Bool)
    (shouldDrawLayers : Bool) (disabledSubPathIndices : List ℕ) : List DrawStep :=
  if !isViewInit then [] else
  let currentAlpha := currentAlphaOf vectorLayerAlpha shouldDisableLayer
  let layerCtx := if currentAlpha < 1 then DrawCtx.offscreenLayer else DrawCtx.rendering
  [DrawStep.save DrawCtx.rendering, DrawStep.setupViewportCoords DrawCtx.rendering]
    ++ (if currentAlpha < 1 then
          [DrawStep.save DrawCtx.offscreenLayer,
           DrawStep.setupViewportCoords DrawCtx.offscreenLayer]
        else [])
    ++ (if shouldDrawLayers then
          let hasDisabledSubPaths := !disabledSubPathIndices.isEmpty
          let subPathCtx := if hasDisabledSubPaths then DrawCtx.offscreenSubPath else layerCtx
          (if hasDisabledSubPaths then
             [DrawStep.save subPathCtx, DrawStep.setupViewportCoords subPathCtx]
           else [])
            ++ [DrawStep.drawDisabledSubPaths subPathCtx]
            ++ (if hasDisabledSubPaths then
                  [DrawStep.drawTranslucentOffscreenCtx layerCtx subPathCtx DISABLED_ALPHA,
                   DrawStep.restore subPathCtx]
                else [])
            ++ [DrawStep.drawEnabledSubPaths layerCtx]
        else [])
    ++ (if currentAlpha < 1 then
          [DrawStep.drawTranslucentOffscreenCtx DrawCtx.rendering DrawCtx.offscreenLayer
             currentAlpha,
           DrawStep.restore DrawCtx.offscreenLayer]
        else [])
    ++ [DrawStep.restore DrawCtx.rendering, DrawStep.drawOverlays]

/-- Modelled from the spec: the three editing app modes of the mode-change
state machine. -/
inductive AppMode where
  | SelectPoints
  | AddPoints
  | SplitSubPaths
deriving DecidableEq, BEq, Repr

/-- Which of the three interaction controllers are instantiated
(the component fields `pathSelector`, `segmentSplitter`, `shapeSplitter`,
canvas.component.ts lines 89-91). -/
structure ControllerState where
  pathSelector : Bool
  segmentSplitter : Bool
  shapeSplitter : Bool
deriving DecidableEq, Repr

/-- Embeds the app-mode subscription handler (canvas.component.ts lines
187-224).  Every controller field is unconditionally reassigned, so the
previous mode's controllers are dropped; the handler then resets the
selection service unless the new mode is AddPoints, and always resets the
hover service.  Returns (controllers, selectionReset, hoverReset). -/
def onAppModeChanged (appMode : AppMode) (hasActivePathLayer stroked filled : Bool) :
    ControllerState × Bool × Bool :=
  let segmentSplitter :=
    appMode == AppMode.AddPoints
      || (appMode == AppMode.SplitSubPaths && hasActivePathLayer && stroked)
  let pathSelector := appMode == AppMode.SelectPoints
  let shapeSplitter := appMode == AppMode.SplitSubPaths && hasActivePathLayer && filled
  let selectionReset := appMode != AppMode.AddPoints
  ({ pathSelector := pathSelector, segmentSplitter := segmentSplitter,
     shapeSplitter := shapeSplitter }, selectionReset, true)

/-- How many controllers a `ControllerState` has instantiated. -/
def controllerCount (s : ControllerState) : ℕ :=
  (if s.pathSelector then 1 else 0) + (if s.segmentSplitter then 1 else 0)
    + (if s.shapeSplitter then 1 else 0)

/-- Embeds the `cssScale` computation of `resizeAndDraw()`
(canvas.component.ts lines 434-443). -/
def computeCssScale (vlWidth vlHeight cssContainerWidth cssContainerHeight : ℚ) : ℚ :=
  let vectorAspect := vlWidth / vlHeight
  let containerAspect := cssContainerWidth / cssContainerHeight
  if vectorAspect > containerAspect then
    cssContainerWidth / vlWidth
  else
    cssContainerHeight / vlHeight

/-- A single point or segment hit candidate/result: owning subpath index,
the command, and its distance to the query point. -/
structure HitInfo where
  subIdx : ℕ
  cmd : Cmd
  distance : ℚ
deriving DecidableEq, Repr

/-- Modelled from the spec: the result of `Path.hitTest` — all matching
hits per category plus an overall isHit flag.  Shape hits carry the
subpath index of the filled region containing the point. -/
structure HitResult where
  isHit : Bool
  endPointHits : List HitInfo
  segmentHits : List HitInfo
  shapeHits : List ℕ
deriving DecidableEq, Repr

/-- Modelled from the spec: the geometric queries of `Path.hitTest`
(distance from each command's end point to the query point, distance from
each command's curve to the query point, which filled non-collapsing
subpaths contain the query point) are pure geometry living in
`scripts/paths`, which is not under `src/`; they are supplied as
pre-computed candidate lists for the query point. -/
structure HitCandidates where
  pointCands : List HitInfo
  segmentCands : List HitInfo
  shapeCands : List ℕ
deriving DecidableEq, Repr

/-- The `HitTestOpts` interface (canvas.component.ts lines 1275-1280),
with the source's defaults (`opts = {}`). -/
structure HitTestOpts where
  noPoints : Bool := false
  noSegments : Bool := false
  noShapes : Bool := false
  restrictToSubIdx : Option (List ℕ) := none
deriving DecidableEq, Repr

/-- Whether a subpath index passes the optional restriction. -/
def subIdxAllowed (restrictToSubIdx : Option (List ℕ)) (subIdx : ℕ) : Bool :=
  match restrictToSubIdx with
  | none => true
  | some allowed => allowed.contains subIdx

/-- Modelled from the spec: `Path.hitTest(point, options)` from
`scripts/paths` — each category is tested exactly when its range function
is provided (for points and segments) or when `findShapesInRange` is set
(for shapes); restriction to a subset of subpath indices is supported for
all categories; `isHit` reports whether any category matched. -/
def hitTest (cands : HitCandidates)
    (isPointInRangeFn isSegmentInRangeFn : Option (ℚ → Cmd → Bool))
    (findShapesInRange : Bool) (restrictToSubIdx : Option (List ℕ)) : HitResult :=
  let endPointHits :=
    match isPointInRangeFn with
    | none => []
    | some inRange =>
        cands.pointCands.filter fun hi =>
          subIdxAllowed restrictToSubIdx hi.subIdx && inRange hi.distance hi.cmd
  let segmentHits :=
    match isSegmentInRangeFn with
    | none => []
    | some inRange =>
        cands.segmentCands.filter fun hi =>
          subIdxAllowed restrictToSubIdx hi.subIdx && inRange hi.distance hi.cmd
  let shapeHits :=
    if findShapesInRange then cands.shapeCands.filter (subIdxAllowed restrictToSubIdx)
    else []
  { isHit := !(endPointHits.isEmpty && segmentHits.isEmpty && shapeHits.isEmpty),
    endPointHits := endPointHits, segmentHits := segmentHits, shapeHits := shapeHits }

/-- Embeds `performHitTest(mousePoint, opts)` (canvas.component.ts lines
400-425).  The screen-to-path-local inverse transform
(`Matrix.flatten(...).invert()` composed with `MathUtil.transformPoint`)
and the path's geometry are not under `src/` and are taken as the
parameters `invTransformPoint` and `hitCandidatesAt`.  When
`getTransformsForLayer` returns `undefined`, the source's
`.reverse()` call throws, embedded as an error result. -/
def performHitTest (vectorLayer : Layer) (activePathId : String)
    (activePathLayer : PathLayerData) (cssScale : ℚ)
    (invTransformPoint : List Matrix → Point → Point)
    (hitCandidatesAt : Point → HitCandidates)
    (mousePoint : Point) (opts : HitTestOpts) :
    Except String HitResult :=
  match getTransformsForLayer vectorLayer activePathId with
  | none => .error "TypeError: transformsForActiveLayer is undefined"
  | some transforms =>
      let transformedMousePoint := invTransformPoint transforms.reverse mousePoint
      let isPointInRangeFn : Option (ℚ → Cmd → Bool) :=
        if opts.noPoints then none else
          some fun distance cmd =>
            let multiplyFactor := if cmd.isSplit then SPLIT_POINT_RADIUS_FACTOR else 1
            decide (distance ≤ MEDIUM_POINT_RADIUS / cssScale * multiplyFactor)
      let isSegmentInRangeFn : Option (ℚ → Cmd → Bool) :=
        if opts.noSegments then none else
          some fun distance _ =>
            decide (distance ≤ activePathLayer.strokeWidth / 2)
      let findShapesInRange := activePathLayer.isFilled && !opts.noShapes
      .ok (hitTest (hitCandidatesAt transformedMousePoint)
        isPointInRangeFn isSegmentInRangeFn findShapesInRange opts.restrictToSubIdx)

/-- Modelled from the spec: the nearest-point projection record
(target point, distance, parametric position). -/
structure Projection where
  x : ℚ
  y : ℚ
  d : ℚ
  t : ℚ
deriving DecidableEq, Repr

/-- Modelled from the spec: a projection paired with the owning subpath
and command indices. -/
structure ProjectionOntoPath where
  subIdx : ℕ
  cmdIdx : ℕ
  projection : Projection
deriving DecidableEq, Repr

/-- Embeds `calculateProjectionOntoPath(mousePoint, restrictToSubIdx)`
(canvas.component.ts lines 363-380).  The inverse transform and
`pathData.project` are not under `src/` and are taken as parameters.  When
`getTransformsForLayer` returns `undefined`, the source's `.reverse()`
call throws, embedded as an error result; when `project` yields nothing,
the source returns `undefined`, embedded as `.ok none`. -/
def calculateProjectionOntoPath (vectorLayer : Layer) (activePathId : String)
    (invTransformPoint : List Matrix → Point → Point)
    (projectPath : Point → Option ℕ → Option ProjectionOntoPath)
    (mousePoint : Point) (restrictToSubIdx : Option ℕ) :
    Except String (Option ProjectionOntoPath) :=
  match getTransformsForLayer vectorLayer activePathId with
  | none => .error "TypeError: cannot call reverse of undefined"
  | some transforms =>
      let transformedMousePoint := invTransformPoint transforms.reverse mousePoint
      match projectPath transformedMousePoint restrictToSubIdx with
      | none => .ok none
      | some projInfo =>
          .ok (some { subIdx := projInfo.subIdx, cmdIdx := projInfo.cmdIdx,
                      projection := projInfo.projection })

/-- Embeds the subpath-selection logic of `onDoubleClick`
(canvas.component.ts lines 1147-1169): in SelectPoints mode, when the hit
test reports a hit, the selected subpath index is the `subIdx` of the last
element of `[].concat(segmentHits, shapeHits, endPointHits)`.  Returns the
subpath index the selection is set to, or `none` when no selection is
made (the last-element lookup of an empty concatenation, which throws in
the source, is also embedded as `none`). -/
def onDoubleClickSelectedSubIdx (appMode : AppMode) (shouldProcessMouseEvents : Bool)
    (hitResult : HitResult) : Option ℕ :=
  if !shouldProcessMouseEvents then none
  else if appMode = AppMode.SelectPoints then
    if hitResult.isHit then
      (hitResult.segmentHits.map HitInfo.subIdx ++ hitResult.shapeHits
        ++ hitResult.endPointHits.map HitInfo.subIdx).getLast?
    else none
  else none

/-! Concrete inputs used by witnesses and counterexamples. -/

/-- A vector layer tree with one group ancestor above the active path. -/
def wGroupTree : Layer :=
  Layer.vector "root" 24 24 1
    [Layer.group "g" 1 2 3 4 30 5 6 [Layer.path "active"]]

/-- A vector layer tree whose only path layer is "active". -/
def wFlatTree : Layer :=
  Layer.vector "root" 24 24 1 [Layer.path "active"]

/-- Identity stand-in for the screen-to-path-local inverse transform. -/
def wIdTransform : List Matrix → Point → Point := fun _ p => p

/-- A straight-line command from (0, 0) to (10, 0). -/
def wLineCmd : Cmd := { svgChar := SvgChar.L, points := [⟨0, 0⟩, ⟨10, 0⟩] }

/-- Geometry oracle: one segment candidate at distance 3, one containing
filled shape, no point candidates. -/
def wSegCands : Point → HitCandidates :=
  fun _ => { pointCands := [], segmentCands := [⟨0, wLineCmd, 3⟩], shapeCands := [0] }

/-- A filled, unstroked path layer with a nonzero stroke width. -/
def wUnstrokedFilledLayer : PathLayerData :=
  { isStroked := false, isFilled := true, strokeWidth := 10,
    trimPathStart := 0, trimPathEnd := 1, trimPathOffset := 0,
    fillTypeEvenOdd := false }

/-- A stroked layer trimmed to `[0.25, 0.75]` with offset 0. -/
def wTrimLayer : PathLayerData :=
  { isStroked := true, isFilled := false, strokeWidth := 1,
    trimPathStart := 1 / 4, trimPathEnd := 3 / 4, trimPathOffset := 0,
    fillTypeEvenOdd := false }

/-- A close-path command from (10, 0) back to (0, 0). -/
def wCloseCmd : Cmd := { svgChar := SvgChar.Z, points := [⟨10, 0⟩, ⟨0, 0⟩] }

/-- A hit result with one hit in every category. -/
def wHitResult : HitResult :=
  { isHit := true, endPointHits := [⟨2, wLineCmd, 1⟩],
    segmentHits := [⟨0, wLineCmd, 2⟩], shapeHits := [1] }

/-- The value of `previousEndPoint` after running the `executeCommands`
loop over a command list, starting from `prev`. -/
def loopPrevEnd (prev : Option Point) (cmds : List Cmd) : Option Point :=
  match cmds.getLast? with
  | none => prev
  | some c => some c.getEnd

/-! Theorems. -/

mutual

theorem getTransformsFn_eq_findAncestors (layerId : String)
    (parents : List Layer) (current : Layer) :
    getTransformsFn layerId parents current =
      (findAncestors layerId parents current).map
        (fun ps => ps.flatMap layerTransformMatrices) := by
  rw [getTransformsFn, findAncestors]
  by_cases h : current.id = layerId
  · simp [h]
  · simp only [h, if_false]
    exact getTransformsFnList_eq_findAncestorsList layerId
      (parents ++ [current]) current.children
termination_by sizeOf current
decreasing_by exact Layer.sizeOf_children_lt current

theorem getTransformsFnList_eq_findAncestorsList (layerId : String)
    (parents : List Layer) (children : List Layer) :
    getTransformsFnList layerId parents children =
      (findAncestorsList layerId parents children).map
        (fun ps => ps.flatMap layerTransformMatrices) := by
  match children with
  | [] => rw [getTransformsFnList, findAncestorsList]; rfl
  | child :: rest =>
      rw [getTransformsFnList, findAncestorsList]
      rw [getTransformsFn_eq_findAncestors layerId parents child]
      cases findAncestors layerId parents child with
      | some ps => rfl
      | none =>
          simp only [Option.map_none']
          exact getTransformsFnList_eq_findAncestorsList layerId parents rest
termination_by sizeOf children
decreasing_by all_goals (simp; try omega)

end

mutual

theorem findAncestors_isSome_eq_occursIn (layerId : String)
    (parents : List Layer) (current : Layer) :
    (findAncestors layerId parents current).isSome = occursIn layerId current := by
  rw [findAncestors, occursIn]
  by_cases hid : current.id = layerId
  · simp [hid]
  · simp only [hid, if_false, decide_False, Bool.false_or]
    exact findAncestorsList_isSome_eq_occursInList layerId
      (parents ++ [current]) current.children
termination_by sizeOf current
decreasing_by exact Layer.sizeOf_children_lt current

theorem findAncestorsList_isSome_eq_occursInList (layerId : String)
    (parents : List Layer) (children : List Layer) :
    (findAncestorsList layerId parents children).isSome =
      occursInList layerId children := by
  match children with
  | [] => rw [findAncestorsList, occursInList]; rfl
  | child :: rest =>
      rw [findAncestorsList, occursInList]
      have h1 := findAncestors_isSome_eq_occursIn layerId parents child
      cases hfa : findAncestors layerId parents child with
      | some ps =>
          rw [hfa] at h1
          simp [← h1]
      | none =>
          rw [hfa] at h1
          have h2 := findAncestorsList_isSome_eq_occursInList layerId parents rest
          simp [← h1, h2]
termination_by sizeOf children
decreasing_by all_goals (simp; try omega)

end

theorem getTransformsForLayer_eq_map_findAncestors (vectorLayer : Layer)
    (layerId : String) :
    getTransformsForLayer vectorLayer layerId =
      (findAncestors layerId [] vectorLayer).map
        (fun ps => ps.flatMap layerTransformMatrices) :=
  getTransformsFn_eq_findAncestors layerId [] vectorLayer

theorem getTransformsForLayer_eq_none_of_not_occursIn (vectorLayer : Layer)
    (layerId : String) (h : occursIn layerId vectorLayer = false) :
    getTransformsForLayer vectorLayer layerId = none := by
  rw [getTransformsForLayer_eq_map_findAncestors]
  have hs := findAncestors_isSome_eq_occursIn layerId [] vectorLayer
  rw [h] at hs
  cases hfa : findAncestors layerId [] vectorLayer with
  | some ps => rw [hfa] at hs; simp at hs
  | none => rfl

/-- Claim C1: for every layer tree and every layer id present in the tree,
`getTransformsForLayer` returns the concatenation, over the target layer's
ancestors from outermost to innermost, of exactly five matrices per
ancestor GroupLayer, in the order pivot-translation, translation,
rotation, scaling, inverse-pivot-translation; non-GroupLayer ancestors
contribute no matrices. -/
theorem getTransformsForLayer_concat_ancestor_groups (vectorLayer : Layer)
    (layerId : String) (h : occursIn layerId vectorLayer = true) :
    ∃ ancestors : List Layer,
      findAncestors layerId [] vectorLayer = some ancestors ∧
      getTransformsForLayer vectorLayer layerId =
        some (ancestors.flatMap fun ancestor =>
          match ancestor with
          | .group _ pivotX pivotY translateX translateY rotation scaleX scaleY _ =>
              [Matrix.fromTranslation pivotX pivotY,
               Matrix.fromTranslation translateX translateY,
               Matrix.fromRotation rotation,
               Matrix.fromScaling scaleX scaleY,
               Matrix.fromTranslation (-pivotX) (-pivotY)]
          | _ => []) := by
  have hs := findAncestors_isSome_eq_occursIn layerId [] vectorLayer
  rw [h] at hs
  cases hfa : findAncestors layerId [] vectorLayer with
  | none => rw [hfa] at hs; simp at hs
  | some ancestors =>
      refine ⟨ancestors, rfl, ?_⟩
      rw [getTransformsForLayer_eq_map_findAncestors, hfa]
      rfl

/-- Witness for C1 at a concrete tree with one group ancestor. -/
theorem getTransformsForLayer_concat_ancestor_groups_witness :
    occursIn "active" wGroupTree = true ∧
    ∃ ancestors : List Layer,
      findAncestors "active" [] wGroupTree = some ancestors ∧
      getTransformsForLayer wGroupTree "active" =
        some (ancestors.flatMap fun ancestor =>
          match ancestor with
          | .group _ pivotX pivotY translateX translateY rotation scaleX scaleY _ =>
              [Matrix.fromTranslation pivotX pivotY,
               Matrix.fromTranslation translateX translateY,
               Matrix.fromRotation rotation,
               Matrix.fromScaling scaleX scaleY,
               Matrix.fromTranslation (-pivotX) (-pivotY)]
          | _ => []) :=
  ⟨by simp [occursIn, occursInList, wGroupTree, Layer.id, Layer.children],
   getTransformsForLayer_concat_ancestor_groups wGroupTree "active"
     (by simp [occursIn, occursInList, wGroupTree, Layer.id, Layer.children])⟩

theorem wFlatTree_transforms : getTransformsForLayer wFlatTree "active" = some [] := by
  simp [getTransformsForLayer, getTransformsFn, getTransformsFnList, wFlatTree,
    Layer.id, Layer.children, layerTransformMatrices]

/-- Claim C2: for every layer tree and every id that does not occur in it,
`getTransformsForLayer` returns the explicit not-found result `none`
(not an identity transform), and the callers `calculateProjectionOntoPath`
and `performHitTest` do not proceed on an unresolved lookup as if it were
the identity transform: they produce no `.ok` result at all. -/
theorem absent_layer_id_not_treated_as_identity (vectorLayer : Layer) (layerId : String)
    (h : occursIn layerId vectorLayer = false)
    (activePathLayer : PathLayerData) (cssScale : ℚ)
    (invTransformPoint : List Matrix → Point → Point)
    (hitCandidatesAt : Point → HitCandidates)
    (projectPath : Point → Option ℕ → Option ProjectionOntoPath)
    (mousePoint : Point) (restrictToSubIdx : Option ℕ) (opts : HitTestOpts) :
    getTransformsForLayer vectorLayer layerId = none ∧
    (∀ r, calculateProjectionOntoPath vectorLayer layerId invTransformPoint projectPath
        mousePoint restrictToSubIdx ≠ .ok r) ∧
    (∀ r, performHitTest vectorLayer layerId activePathLayer cssScale invTransformPoint
        hitCandidatesAt mousePoint opts ≠ .ok r) := by
  have hn := getTransformsForLayer_eq_none_of_not_occursIn vectorLayer layerId h
  refine ⟨hn, ?_, ?_⟩
  · intro r hr
    rw [calculateProjectionOntoPath, hn] at hr
    exact Except.noConfusion hr
  · intro r hr
    rw [performHitTest, hn] at hr
    exact Except.noConfusion hr

/-- Witness for C2 at a concrete tree and absent id. -/
theorem absent_layer_id_not_treated_as_identity_witness :
    occursIn "missing" wFlatTree = false ∧
    (getTransformsForLayer wFlatTree "missing" = none ∧
     (∀ r, calculateProjectionOntoPath wFlatTree "missing" wIdTransform (fun _ _ => none)
        ⟨0, 0⟩ none ≠ .ok r) ∧
     (∀ r, performHitTest wFlatTree "missing" wUnstrokedFilledLayer 1 wIdTransform
        wSegCands ⟨0, 0⟩ {} ≠ .ok r)) :=
  ⟨by simp [occursIn, occursInList, wFlatTree, Layer.id, Layer.children],
   absent_layer_id_not_treated_as_identity wFlatTree "missing"
     (by simp [occursIn, occursInList, wFlatTree, Layer.id, Layer.children])
     wUnstrokedFilledLayer 1 wIdTransform wSegCands (fun _ _ => none) ⟨0, 0⟩ none {}⟩

/-- Counterexample to C3 as stated: `performHitTest` has no isStroked gate
for segment hits.  On a filled but unstroked layer, with the default
options, a segment candidate within half the stroke width is still
accepted as a segment hit. -/
theorem performHitTest_segment_hit_on_unstroked_layer :
    wUnstrokedFilledLayer.isStroked = false ∧
    (performHitTest wFlatTree "active" wUnstrokedFilledLayer 1 wIdTransform wSegCands
        ⟨0, 0⟩ {}).map HitResult.segmentHits = .ok [⟨0, wLineCmd, 3⟩] := by
  refine ⟨rfl, ?_⟩
  rw [performHitTest, wFlatTree_transforms]
  norm_num [hitTest, wSegCands, wUnstrokedFilledLayer, subIdxAllowed, wLineCmd,
    MEDIUM_POINT_RADIUS, SPLIT_POINT_RADIUS_FACTOR, Except.map]

/-- Claim C3 (amended): for every `performHitTest` invocation whose
transform lookup resolves, the result is `.ok` and: endpoint hits are
exactly the point candidates within the medium point radius, scaled by
the split-point factor 0.8 for split commands, unless suppressed by
`noPoints`; segment hits are exactly the segment candidates within half
the active layer's stroke width, unless suppressed by `noSegments`
(with no condition on the layer being stroked — that gating is done by
the double-click caller via `noSegments`); shape hits are tested only
when the layer is filled and not suppressed by `noShapes`; all categories
respect the subpath-index restriction, and `isHit` records whether any
category matched. -/
theorem performHitTest_characterization (vectorLayer : Layer) (activePathId : String)
    (layer : PathLayerData) (cssScale : ℚ)
    (invT : List Matrix → Point → Point) (candsAt : Point → HitCandidates)
    (p : Point) (opts : HitTestOpts) (ts : List Matrix)
    (hts : getTransformsForLayer vectorLayer activePathId = some ts) :
    ∃ hr : HitResult,
      performHitTest vectorLayer activePathId layer cssScale invT candsAt p opts =
        .ok hr ∧
      hr.endPointHits =
        (if opts.noPoints then [] else
          (candsAt (invT ts.reverse p)).pointCands.filter fun hi =>
            subIdxAllowed opts.restrictToSubIdx hi.subIdx
              && decide (hi.distance ≤ MEDIUM_POINT_RADIUS / cssScale *
                   (if hi.cmd.isSplit then SPLIT_POINT_RADIUS_FACTOR else 1))) ∧
      hr.segmentHits =
        (if opts.noSegments then [] else
          (candsAt (invT ts.reverse p)).segmentCands.filter fun hi =>
            subIdxAllowed opts.restrictToSubIdx hi.subIdx
              && decide (hi.distance ≤ layer.strokeWidth / 2)) ∧
      hr.shapeHits =
        (if layer.isFilled && !opts.noShapes then
          (candsAt (invT ts.reverse p)).shapeCands.filter
            (subIdxAllowed opts.restrictToSubIdx)
         else []) ∧
      hr.isHit =
        !(hr.endPointHits.isEmpty && hr.segmentHits.isEmpty && hr.shapeHits.isEmpty) := by
  rw [performHitTest, hts]
  refine ⟨_, rfl, ?_, ?_, ?_, ?_⟩
  · by_cases hp : opts.noPoints <;> simp [hitTest, hp]
  · by_cases hs : opts.noSegments <;> simp [hitTest, hs]
  · by_cases hf : layer.isFilled && !opts.noShapes <;> simp [hitTest, hf]
  · rfl

/-- Witness for the amended C3 at a concrete invocation. -/
theorem performHitTest_characterization_witness :
    ∃ hr : HitResult,
      performHitTest wFlatTree "active" wUnstrokedFilledLayer 1 wIdTransform wSegCands
        ⟨0, 0⟩ {} = .ok hr ∧
      hr.endPointHits =
        (if HitTestOpts.noPoints {} then [] else
          (wSegCands (wIdTransform (List.reverse []) ⟨0, 0⟩)).pointCands.filter fun hi =>
            subIdxAllowed (HitTestOpts.restrictToSubIdx {}) hi.subIdx
              && decide (hi.distance ≤ MEDIUM_POINT_RADIUS / 1 *
                   (if hi.cmd.isSplit then SPLIT_POINT_RADIUS_FACTOR else 1))) ∧
      hr.segmentHits =
        (if HitTestOpts.noSegments {} then [] else
          (wSegCands (wIdTransform (List.reverse []) ⟨0, 0⟩)).segmentCands.filter fun hi =>
            subIdxAllowed (HitTestOpts.restrictToSubIdx {}) hi.subIdx
              && decide (hi.distance ≤ wUnstrokedFilledLayer.strokeWidth / 2)) ∧
      hr.shapeHits =
        (if wUnstrokedFilledLayer.isFilled && !(HitTestOpts.noShapes {}) then
          (wSegCands (wIdTransform (List.reverse []) ⟨0, 0⟩)).shapeCands.filter
            (subIdxAllowed (HitTestOpts.restrictToSubIdx {}))
         else []) ∧
      hr.isHit =
        !(hr.endPointHits.isEmpty && hr.segmentHits.isEmpty && hr.shapeHits.isEmpty) :=
  performHitTest_characterization wFlatTree "active" wUnstrokedFilledLayer 1
    wIdTransform wSegCands ⟨0, 0⟩ {} [] wFlatTree_transforms

/-- Claim C4: for every PathLayer whose trim triple differs from
(0, 1, 0), `drawPaths` first sets the dash array to
`[f * L, (1 - f + 0.001) * L]`, where `f = trimPathEnd - trimPathStart`
plus 1 when `trimPathStart > trimPathEnd`, and then sets the dash offset
to `L * (1 - ((trimPathStart + trimPathOffset) mod 1))`. -/
theorem drawPaths_trim_dash (layer : PathLayerData) (pathLength : ℚ)
    (h : ¬(layer.trimPathStart = 0 ∧ layer.trimPathEnd = 1 ∧ layer.trimPathOffset = 0)) :
    (drawPathLayerPaintOps layer pathLength).take 2 =
      [PaintOp.setLineDash
         [(layer.trimPathEnd - layer.trimPathStart
             + if layer.trimPathStart > layer.trimPathEnd then 1 else 0) * pathLength,
          (1 - (layer.trimPathEnd - layer.trimPathStart
             + if layer.trimPathStart > layer.trimPathEnd then 1 else 0) + 1 / 1000)
            * pathLength],
       PaintOp.setLineDashOffset
         (pathLength * (1 - jsRem (layer.trimPathStart + layer.trimPathOffset) 1))] := by
  have hcond : layer.trimPathStart ≠ 0 ∨ layer.trimPathEnd ≠ 1
      ∨ layer.trimPathOffset ≠ 0 := by tauto
  rw [drawPathLayerPaintOps, if_pos hcond]
  by_cases hgt : layer.trimPathStart > layer.trimPathEnd
  · simp [hgt]
  · simp [hgt]

/-- Witness for C4 at trimPathStart = 0.25, trimPathEnd = 0.75,
trimPathOffset = 0 and path length 100: the dash array is [50, 50.1] and
the dash offset is 75. -/
theorem drawPaths_trim_dash_witness :
    ¬(wTrimLayer.trimPathStart = 0 ∧ wTrimLayer.trimPathEnd = 1
        ∧ wTrimLayer.trimPathOffset = 0) ∧
    (drawPathLayerPaintOps wTrimLayer 100).take 2 =
      [PaintOp.setLineDash [50, 501 / 10], PaintOp.setLineDashOffset 75] := by
  refine ⟨by norm_num [wTrimLayer], ?_⟩
  have h := drawPaths_trim_dash wTrimLayer 100 (by norm_num [wTrimLayer])
  rw [h]
  norm_num [wTrimLayer, jsRem]

/-- Claim C5: in SelectPoints mode, on a hit, the double-click handler
selects the subpath index of the last element of the concatenation of the
segment hits, the shape hits and the endpoint hits, so endpoint hits win
ties over shape hits, which win over segment hits. -/
theorem onDoubleClick_last_hit_wins (hr : HitResult) (h : hr.isHit = true) :
    onDoubleClickSelectedSubIdx AppMode.SelectPoints true hr =
      (hr.segmentHits.map HitInfo.subIdx ++ hr.shapeHits
        ++ hr.endPointHits.map HitInfo.subIdx).getLast? ∧
    (hr.endPointHits ≠ [] →
      onDoubleClickSelectedSubIdx AppMode.SelectPoints true hr =
        (hr.endPointHits.map HitInfo.subIdx).getLast?) ∧
    (hr.endPointHits = [] → hr.shapeHits ≠ [] →
      onDoubleClickSelectedSubIdx AppMode.SelectPoints true hr =
        hr.shapeHits.getLast?) ∧
    (hr.endPointHits = [] → hr.shapeHits = [] →
      onDoubleClickSelectedSubIdx AppMode.SelectPoints true hr =
        (hr.segmentHits.map HitInfo.subIdx).getLast?) := by
  have hsel : onDoubleClickSelectedSubIdx AppMode.SelectPoints true hr =
      (hr.segmentHits.map HitInfo.subIdx ++ hr.shapeHits
        ++ hr.endPointHits.map HitInfo.subIdx).getLast? := by
    simp [onDoubleClickSelectedSubIdx, h]
  refine ⟨hsel, ?_, ?_, ?_⟩
  · intro hne
    rw [hsel, List.getLast?_append_of_ne_nil]
    simpa using hne
  · intro hend hshape
    rw [hsel, hend]
    simp only [List.map_nil, List.append_nil]
    exact List.getLast?_append_of_ne_nil _ hshape
  · intro hend hshape
    rw [hsel, hend, hshape]
    simp

/-- Witness for C5 at a hit result with one hit in every category. -/
theorem onDoubleClick_last_hit_wins_witness :
    wHitResult.isHit = true ∧
    (onDoubleClickSelectedSubIdx AppMode.SelectPoints true wHitResult =
      (wHitResult.segmentHits.map HitInfo.subIdx ++ wHitResult.shapeHits
        ++ wHitResult.endPointHits.map HitInfo.subIdx).getLast? ∧
    (wHitResult.endPointHits ≠ [] →
      onDoubleClickSelectedSubIdx AppMode.SelectPoints true wHitResult =
        (wHitResult.endPointHits.map HitInfo.subIdx).getLast?) ∧
    (wHitResult.endPointHits = [] → wHitResult.shapeHits ≠ [] →
      onDoubleClickSelectedSubIdx AppMode.SelectPoints true wHitResult =
        wHitResult.shapeHits.getLast?) ∧
    (wHitResult.endPointHits = [] → wHitResult.shapeHits = [] →
      onDoubleClickSelectedSubIdx AppMode.SelectPoints true wHitResult =
        (wHitResult.segmentHits.map HitInfo.subIdx).getLast?)) :=
  ⟨rfl, onDoubleClick_last_hit_wins wHitResult rfl⟩

/-- Claim C9: for every PathLayer, `drawPaths` issues the stroke call
exactly when the layer is stroked, its stroke width is nonzero and
trimPathStart differs from trimPathEnd; in particular a stroked layer
with trimPathStart = trimPathEnd is not stroked at all. -/
theorem drawPaths_stroke_iff (layer : PathLayerData) (pathLength : ℚ) :
    PaintOp.stroke ∈ drawPathLayerPaintOps layer pathLength ↔
      (layer.isStroked = true ∧ layer.strokeWidth ≠ 0 ∧
        layer.trimPathStart ≠ layer.trimPathEnd) := by
  rw [drawPathLayerPaintOps]
  split_ifs <;> simp_all

/-- Counterexample to C6 as stated: in SplitSubPaths mode with an active
path layer that is both stroked and filled, the mode-change handler
instantiates both the segment splitter and the shape splitter, so more
than one controller is instantiated. -/
theorem onAppModeChanged_two_controllers :
    (onAppModeChanged AppMode.SplitSubPaths true true true).1.segmentSplitter = true ∧
    (onAppModeChanged AppMode.SplitSubPaths true true true).1.shapeSplitter = true ∧
    ¬ controllerCount (onAppModeChanged AppMode.SplitSubPaths true true true).1 ≤ 1 := by
  decide

/-- Claim C6 (amended): after the mode-change handler runs, the segment
splitter is instantiated iff the mode is AddPoints or the mode is
SplitSubPaths with a stroked active path layer; the point selector iff the
mode is SelectPoints; the shape splitter iff the mode is SplitSubPaths
with a filled active path layer; hence at most two controllers are
instantiated, with two exactly in SplitSubPaths mode on a layer that is
both stroked and filled (the controllers of the previous mode are always
dropped, since every controller field is reassigned).  The hover state is
always reset; the selection set is reset iff the new mode is not
AddPoints. -/
theorem onAppModeChanged_characterization (m : AppMode) (h s f : Bool) :
    ((onAppModeChanged m h s f).1.pathSelector = true ↔ m = AppMode.SelectPoints) ∧
    ((onAppModeChanged m h s f).1.segmentSplitter = true ↔
      (m = AppMode.AddPoints ∨ (m = AppMode.SplitSubPaths ∧ h = true ∧ s = true))) ∧
    ((onAppModeChanged m h s f).1.shapeSplitter = true ↔
      (m = AppMode.SplitSubPaths ∧ h = true ∧ f = true)) ∧
    (onAppModeChanged m h s f).2.2 = true ∧
    ((onAppModeChanged m h s f).2.1 = true ↔ m ≠ AppMode.AddPoints) ∧
    controllerCount (onAppModeChanged m h s f).1 ≤ 2 ∧
    (controllerCount (onAppModeChanged m h s f).1 = 2 ↔
      (m = AppMode.SplitSubPaths ∧ h = true ∧ s = true ∧ f = true)) := by
  cases m <;> cases h <;> cases s <;> cases f <;> decide

/-- Claim C10: the `cssScale` computed by `resizeAndDraw` is the minimum
of the width ratio and the height ratio, so the scaled viewport never
exceeds the container in either dimension. -/
theorem resize_cssScale_aspect_fit (vlWidth vlHeight cw ch : ℚ)
    (hvw : 0 < vlWidth) (hvh : 0 < vlHeight) (hcw : 0 < cw) (hch : 0 < ch) :
    computeCssScale vlWidth vlHeight cw ch = min (cw / vlWidth) (ch / vlHeight) ∧
    computeCssScale vlWidth vlHeight cw ch * vlWidth ≤ cw ∧
    computeCssScale vlWidth vlHeight cw ch * vlHeight ≤ ch := by
  have key : computeCssScale vlWidth vlHeight cw ch =
      min (cw / vlWidth) (ch / vlHeight) := by
    show (if vlWidth / vlHeight > cw / ch then cw / vlWidth else ch / vlHeight) = _
    by_cases hgt : vlWidth / vlHeight > cw / ch
    · have h1 : cw * vlHeight < vlWidth * ch := by
        rw [gt_iff_lt, div_lt_div_iff₀ hch hvh] at hgt
        linarith
      have h2 : cw / vlWidth ≤ ch / vlHeight := by
        rw [div_le_div_iff₀ hvw hvh]
        linarith
      rw [if_pos hgt, min_eq_left h2]
    · have h1 : vlWidth * ch ≤ cw * vlHeight := by
        rw [gt_iff_lt, not_lt, div_le_div_iff₀ hvh hch] at hgt
        linarith
      have h2 : ch / vlHeight ≤ cw / vlWidth := by
        rw [div_le_div_iff₀ hvh hvw]
        linarith
      rw [if_neg hgt, min_eq_right h2]
  refine ⟨key, ?_, ?_⟩
  · rw [key]
    calc min (cw / vlWidth) (ch / vlHeight) * vlWidth
        ≤ cw / vlWidth * vlWidth :=
          mul_le_mul_of_nonneg_right (min_le_left _ _) (le_of_lt hvw)
      _ = cw := div_mul_cancel₀ cw (ne_of_gt hvw)
  · rw [key]
    calc min (cw / vlWidth) (ch / vlHeight) * vlHeight
        ≤ ch / vlHeight * vlHeight :=
          mul_le_mul_of_nonneg_right (min_le_right _ _) (le_of_lt hvh)
      _ = ch := div_mul_cancel₀ ch (ne_of_gt hvh)

/-- Witness for C10 at a 24×24 viewport in a 100×50 container. -/
theorem resize_cssScale_aspect_fit_witness :
    (0 : ℚ) < 24 ∧ (0 : ℚ) < 100 ∧ (0 : ℚ) < 50 ∧
    (computeCssScale 24 24 100 50 = min (100 / 24) (50 / 24) ∧
     computeCssScale 24 24 100 50 * 24 ≤ 100 ∧
     computeCssScale 24 24 100 50 * 24 ≤ 50) :=
  ⟨by norm_num, by norm_num, by norm_num,
   resize_cssScale_aspect_fit 24 24 100 50 (by norm_num) (by norm_num)
     (by norm_num) (by norm_num)⟩

theorem loopPrevEnd_cons (prev : Option Point) (c : Cmd) (rest : List Cmd) :
    loopPrevEnd prev (c :: rest) = loopPrevEnd (some c.getEnd) rest := by
  cases rest with
  | nil => simp [loopPrevEnd]
  | cons d ds =>
      rw [loopPrevEnd, loopPrevEnd, List.getLast?_cons_cons]
      cases h : (d :: ds).getLast? with
      | none => simp at h
      | some e => simp [h]

theorem loopPrevEnd_none (l : List Cmd) :
    loopPrevEnd none l = l.getLast?.map Cmd.getEnd := by
  cases h : l.getLast? <;> simp [loopPrevEnd, h]

theorem executeCommandsLoop_append (l1 l2 : List Cmd) (prev : Option Point) :
    executeCommandsLoop prev (l1 ++ l2) =
      executeCommandsLoop prev l1
        ++ executeCommandsLoop (loopPrevEnd prev l1) l2 := by
  induction l1 generalizing prev with
  | nil => simp [executeCommandsLoop, loopPrevEnd]
  | cons c rest ih =>
      simp only [List.cons_append, executeCommandsLoop, List.append_eq, ih,
        loopPrevEnd_cons, List.append_assoc]

theorem executeCommandStep_closePath (prev : Option Point) (c : Cmd)
    (hz : c.svgChar = SvgChar.Z) :
    executeCommandStep prev c =
      if prev = some c.getStart then [CanvasOp.closePath]
      else [CanvasOp.moveTo c.getStart.x c.getStart.y,
            CanvasOp.lineTo c.getEnd.x c.getEnd.y] := by
  rw [executeCommandStep, hz]

/-- Claim C8: in `executeCommands`, a ClosePath command issues a closePath
call exactly when its start point equals the previous command's end
point; otherwise it issues a moveTo to its start point followed by a
lineTo to its end point, in particular when the command list consists of
a single ClosePath command (where the single-segment special case also
issues an extra leading moveTo). -/
theorem executeCommands_closePath (cs1 cs2 : List Cmd) (c : Cmd) (ts : List Matrix)
    (hz : c.svgChar = SvgChar.Z) :
    (∃ pre post, executeCommands (cs1 ++ c :: cs2) ts =
        pre ++ (if cs1.getLast?.map Cmd.getEnd = some c.getStart
                then [CanvasOp.closePath]
                else [CanvasOp.moveTo c.getStart.x c.getStart.y,
                      CanvasOp.lineTo c.getEnd.x c.getEnd.y]) ++ post) ∧
    executeCommands [c] ts =
      [CanvasOp.save] ++ ts.map CanvasOp.transform
        ++ [CanvasOp.beginPath, CanvasOp.moveTo c.getStart.x c.getStart.y,
            CanvasOp.moveTo c.getStart.x c.getStart.y,
            CanvasOp.lineTo c.getEnd.x c.getEnd.y, CanvasOp.restore] := by
  constructor
  · refine ⟨[CanvasOp.save] ++ ts.map CanvasOp.transform ++ [CanvasOp.beginPath]
      ++ singleSegmentMoveTo (cs1 ++ c :: cs2)
      ++ executeCommandsLoop none cs1,
      executeCommandsLoop (some c.getEnd) cs2 ++ [CanvasOp.restore], ?_⟩
    rw [executeCommands, executeCommandsLoop_append]
    rw [show executeCommandsLoop (loopPrevEnd none cs1) (c :: cs2) =
        executeCommandStep (loopPrevEnd none cs1) c
          ++ executeCommandsLoop (some c.getEnd) cs2 from rfl]
    rw [executeCommandStep_closePath _ c hz, loopPrevEnd_none]
    simp [List.append_assoc]
  · rw [executeCommands]
    simp [executeCommandsLoop, executeCommandStep_closePath _ c hz, hz,
      singleSegmentMoveTo]

/-- Witness for C8: a line from (0, 0) to (10, 0) followed by a ClosePath
whose start (10, 0) matches the line's end, and the same ClosePath alone. -/
theorem executeCommands_closePath_witness :
    wCloseCmd.svgChar = SvgChar.Z ∧
    ((∃ pre post, executeCommands ([wLineCmd] ++ wCloseCmd :: []) [] =
        pre ++ (if [wLineCmd].getLast?.map Cmd.getEnd = some wCloseCmd.getStart
                then [CanvasOp.closePath]
                else [CanvasOp.moveTo wCloseCmd.getStart.x wCloseCmd.getStart.y,
                      CanvasOp.lineTo wCloseCmd.getEnd.x wCloseCmd.getEnd.y]) ++ post) ∧
     executeCommands [wCloseCmd] [] =
       [CanvasOp.save] ++ List.map CanvasOp.transform []
         ++ [CanvasOp.beginPath,
             CanvasOp.moveTo wCloseCmd.getStart.x wCloseCmd.getStart.y,
             CanvasOp.moveTo wCloseCmd.getStart.x wCloseCmd.getStart.y,
             CanvasOp.lineTo wCloseCmd.getEnd.x wCloseCmd.getEnd.y,
             CanvasOp.restore]) :=
  ⟨rfl, executeCommands_closePath [wLineCmd] [] wCloseCmd [] rfl⟩

/-- Claim C7: in `draw()`, when the composed alpha (disabled-dim factor
times the vector layer's alpha) is exactly 1 the layer is drawn directly
to the rendering context and no offscreen-layer compositing pass happens;
when it is less than 1 the layer is drawn to the offscreen layer buffer
and composited back at exactly the composed alpha; independently, when
any subpath indices are marked disabled, the disabled subpaths are drawn
to the offscreen subpath buffer and composited at DISABLED_ALPHA before
the enabled subpaths are drawn. -/
theorem draw_compositing (vectorLayerAlpha : Option ℚ)
    (shouldDisableLayer shouldDrawLayers : Bool) (disabled : List ℕ) :
    (currentAlphaOf vectorLayerAlpha shouldDisableLayer = 1 →
      (∀ a : ℚ, DrawStep.drawTranslucentOffscreenCtx DrawCtx.rendering
          DrawCtx.offscreenLayer a ∉
            draw true vectorLayerAlpha shouldDisableLayer shouldDrawLayers disabled) ∧
      (shouldDrawLayers = true →
        DrawStep.drawEnabledSubPaths DrawCtx.rendering ∈
          draw true vectorLayerAlpha shouldDisableLayer shouldDrawLayers disabled)) ∧
    (currentAlphaOf vectorLayerAlpha shouldDisableLayer < 1 →
      DrawStep.drawTranslucentOffscreenCtx DrawCtx.rendering DrawCtx.offscreenLayer
          (currentAlphaOf vectorLayerAlpha shouldDisableLayer) ∈
        draw true vectorLayerAlpha shouldDisableLayer shouldDrawLayers disabled ∧
      (shouldDrawLayers = true →
        DrawStep.drawEnabledSubPaths DrawCtx.offscreenLayer ∈
          draw true vectorLayerAlpha shouldDisableLayer shouldDrawLayers disabled)) ∧
    (shouldDrawLayers = true → disabled ≠ [] →
      ∃ pre post,
        draw true vectorLayerAlpha shouldDisableLayer shouldDrawLayers disabled =
          pre ++ DrawStep.drawDisabledSubPaths DrawCtx.offscreenSubPath
            :: DrawStep.drawTranslucentOffscreenCtx
                 (if currentAlphaOf vectorLayerAlpha shouldDisableLayer < 1 then
                    DrawCtx.offscreenLayer
                  else DrawCtx.rendering)
                 DrawCtx.offscreenSubPath DISABLED_ALPHA
            :: DrawStep.restore DrawCtx.offscreenSubPath
            :: DrawStep.drawEnabledSubPaths
                 (if currentAlphaOf vectorLayerAlpha shouldDisableLayer < 1 then
                    DrawCtx.offscreenLayer
                  else DrawCtx.rendering)
            :: post) := by
  refine ⟨?_, ?_, ?_⟩
  · intro h1
    have hnlt : ¬ currentAlphaOf vectorLayerAlpha shouldDisableLayer < 1 := by
      rw [h1]; exact lt_irrefl 1
    constructor
    · intro a
      by_cases hsdl : shouldDrawLayers = true <;>
        by_cases hd : disabled.isEmpty = true <;>
          simp [draw, hnlt, hsdl, hd]
    · intro hsdl
      by_cases hd : disabled.isEmpty = true <;> simp [draw, hnlt, hsdl, hd]
  · intro hlt
    constructor
    · by_cases hsdl : shouldDrawLayers = true <;>
        by_cases hd : disabled.isEmpty = true <;>
          simp [draw, hlt, hsdl, hd]
    · intro hsdl
      by_cases hd : disabled.isEmpty = true <;> simp [draw, hlt, hsdl, hd]
  · intro hsdl hdis
    have hne : disabled.isEmpty = false := by
      cases disabled with
      | nil => exact absurd rfl hdis
      | cons a as => rfl
    by_cases hlt : currentAlphaOf vectorLayerAlpha shouldDisableLayer < 1
    · exact ⟨[DrawStep.save DrawCtx.rendering,
        DrawStep.setupViewportCoords DrawCtx.rendering,
        DrawStep.save DrawCtx.offscreenLayer,
        DrawStep.setupViewportCoords DrawCtx.offscreenLayer,
        DrawStep.save DrawCtx.offscreenSubPath,
        DrawStep.setupViewportCoords DrawCtx.offscreenSubPath],
        [DrawStep.drawTranslucentOffscreenCtx DrawCtx.rendering DrawCtx.offscreenLayer
           (currentAlphaOf vectorLayerAlpha shouldDisableLayer),
         DrawStep.restore DrawCtx.offscreenLayer,
         DrawStep.restore DrawCtx.rendering, DrawStep.drawOverlays],
        by simp [draw, hlt, hsdl, hne]⟩
    · exact ⟨[DrawStep.save DrawCtx.rendering,
        DrawStep.setupViewportCoords DrawCtx.rendering,
        DrawStep.save DrawCtx.offscreenSubPath,
        DrawStep.setupViewportCoords DrawCtx.offscreenSubPath],
        [DrawStep.restore DrawCtx.rendering, DrawStep.drawOverlays],
        by simp [draw, hlt, hsdl, hne]⟩

/-- Witness for C7: vector layer alpha 1/2 (composed alpha 1/2 < 1), one
disabled subpath index. -/
theorem draw_compositing_witness :
    currentAlphaOf (some (1 / 2)) false < 1 ∧
    (DrawStep.drawTranslucentOffscreenCtx DrawCtx.rendering DrawCtx.offscreenLayer
        (currentAlphaOf (some (1 / 2)) false) ∈ draw true (some (1 / 2)) false true [0] ∧
      (true = true →
        DrawStep.drawEnabledSubPaths DrawCtx.offscreenLayer ∈
          draw true (some (1 / 2)) false true [0])) ∧
    (∃ pre post,
        draw true (some (1 / 2)) false true [0] =
          pre ++ DrawStep.drawDisabledSubPaths DrawCtx.offscreenSubPath
            :: DrawStep.drawTranslucentOffscreenCtx
                 (if currentAlphaOf (some (1 / 2)) false < 1 then
                    DrawCtx.offscreenLayer
                  else DrawCtx.rendering)
                 DrawCtx.offscreenSubPath DISABLED_ALPHA
            :: DrawStep.restore DrawCtx.offscreenSubPath
            :: DrawStep.drawEnabledSubPaths
                 (if currentAlphaOf (some (1 / 2)) false < 1 then
                    DrawCtx.offscreenLayer
                  else DrawCtx.rendering)
            :: post) := by
  have halpha : currentAlphaOf (some (1 / 2)) false < 1 := by
    norm_num [currentAlphaOf]
  refine ⟨halpha, ?_, ?_⟩
  · exact (draw_compositing (some (1 / 2)) false true [0]).2.1 halpha
  · exact (draw_compositing (some (1 / 2)) false true [0]).2.2 rfl (by simp)

end ShapeShifter
